import Mathlib

/-!
# convercoin: the currency converter and its rate service

A shallow embedding of `src/CurrencyConverter.js` and `src/ApiService.js`.

* JavaScript values are the inductive `JsVal`; numbers are binary64 values
  (`JsNum`) with an exact model of multiplication (round to nearest, ties to
  even).
* `ApiService` is a record holding the `Map` cache and the TTL; every method
  takes the service and returns the updated service.  The list `requests`
  records the URL of every `fetch` that was started.
* An `async` function that rejects is a function returning `Except.error`.
-/

namespace Convercoin

/-! ## Numbers -/

/-- A JavaScript number: `NaN`, an infinity, or the finite value
`(-1)^neg * m * 2^e`. -/
inductive JsNum where
  | nan
  | inf (neg : Bool)
  | fin (neg : Bool) (m : Nat) (e : Int)
  deriving DecidableEq, Repr

/-- Number of binary digits of `n`, by recursion on a fuel that bounds it. -/
def bitLengthAux : Nat → Nat → Nat
  | 0, _ => 0
  | fuel + 1, n => if n = 0 then 0 else bitLengthAux fuel (n / 2) + 1

/-- Number of binary digits of `n`. -/
def bitLength (n : Nat) : Nat := bitLengthAux n n

/-- The binary64 value nearest to `(-1)^neg * m * 2^e`, ties to even.
Finite results have `m < 2^53` and `-1074 ≤ e ≤ 971`. -/
def roundBinary64 (neg : Bool) (m : Nat) (e : Int) : JsNum :=
  if m = 0 then .fin neg 0 (-1074)
  else
    let e1 : Int := max (e + (bitLength m : Int) - 53) (-1074)
    if e1 ≤ e then
      if 971 < e1 then .inf neg else .fin neg (m * 2 ^ (e - e1).toNat) e1
    else
      let sh : Nat := (e1 - e).toNat
      let q : Nat := m / 2 ^ sh
      let r : Nat := m % 2 ^ sh
      let half : Nat := 2 ^ (sh - 1)
      let q1 : Nat := if half < r ∨ (r = half ∧ q % 2 = 1) then q + 1 else q
      let q2 : Nat := if q1 = 2 ^ 53 then 2 ^ 52 else q1
      let e2 : Int := if q1 = 2 ^ 53 then e1 + 1 else e1
      if 971 < e2 then .inf neg else .fin neg q2 e2

/-- The JavaScript product `a * b` of two numbers. -/
def jsMul : JsNum → JsNum → JsNum
  | .nan, _ => .nan
  | _, .nan => .nan
  | .inf n1, .inf n2 => .inf (n1 != n2)
  | .inf n1, .fin n2 m _ => if m = 0 then .nan else .inf (n1 != n2)
  | .fin n1 m _, .inf n2 => if m = 0 then .nan else .inf (n1 != n2)
  | .fin n1 m1 e1, .fin n2 m2 e2 => roundBinary64 (n1 != n2) (m1 * m2) (e1 + e2)

/-- The JavaScript comparison `a <= 0`. -/
def jsLeZero : JsNum → Bool
  | .nan => false
  | .inf neg => neg
  | .fin neg m _ => neg || m == 0

/-- The JavaScript comparison `a > 0`. -/
def jsGtZero : JsNum → Bool
  | .nan => false
  | .inf neg => !neg
  | .fin neg m _ => !neg && m != 0

/-- The JavaScript negation `-a`. -/
def jsNeg : JsNum → JsNum
  | .nan => .nan
  | .inf neg => .inf (!neg)
  | .fin neg m e => .fin (!neg) m e

/-- The number literal `n` for a natural number `n`. -/
def JsNum.ofNat (n : Nat) : JsNum := roundBinary64 false n 0

/-- The number literal `0.9`: the binary64 value `0x3FECCCCCCCCCCCCD`. -/
def JsNum.zeroPointNine : JsNum := .fin false 8106479329266893 (-53)

/-! ## Values, thrown values and results -/

deriving instance DecidableEq for Except

/-- A JavaScript value that the converter can be handed or can return: a
primitive, or `inherited p`, the built-in function or object found under the
property name `p` of `Object.prototype`. -/
inductive JsVal where
  | undefined
  | null
  | bool (b : Bool)
  | num (n : JsNum)
  | str (s : String)
  | inherited (prop : String)
  deriving DecidableEq, Repr

/-- A thrown value (the reason of a rejected promise): an `Error` object with
its `name` and `message`, `undefined`, `null`, or another primitive (a
boolean, number or string, which has neither a `name` nor a `message`). -/
inductive Thrown where
  | error (name message : String)
  | undefined
  | null
  | primitive
  deriving DecidableEq, Repr

/-- The object returned by `ApiService.getExchangeRate`: either
`{ success: false, error }` or `{ success: true, rate, lastUpdate }`. -/
inductive ExchangeData where
  | failure (error : JsVal)
  | success (rate : JsNum) (lastUpdate : String)
  deriving DecidableEq, Repr

/-- The object returned by `CurrencyConverter.convert`: either
`{ success: false, error, fromCurrency, toCurrency, amount }` or
`{ success: true, fromCurrency, toCurrency, amount, convertedAmount,
exchangeRate, lastUpdate }`. -/
inductive ConversionResult where
  | failure (error fromCurrency toCurrency amount : JsVal)
  | success (fromCurrency toCurrency amount : JsVal) (convertedAmount exchangeRate : JsNum)
      (lastUpdate : String)
  deriving DecidableEq, Repr

/-- The `success` flag of a conversion result. -/
def ConversionResult.isSuccess : ConversionResult → Bool
  | .failure _ _ _ _ => false
  | .success _ _ _ _ _ _ => true

/-! ## Strings -/

/-- The upper-case form of one character, as `String.prototype.toUpperCase`
computes it, for every character whose upper-case form contains an ASCII
letter: the letters `a`-`z`, dotless i (U+0131), long s (U+017F), sharp s
(U+00DF), the ligatures U+FB00-U+FB06 and the letters U+0149, U+01F0,
U+1E96-U+1E9A.  A character outside this table is left as it is; its
upper-case form in JavaScript contains no ASCII letter either. -/
def upperChar (c : Char) : List Char :=
  let n := c.toNat
  if 97 ≤ n ∧ n ≤ 122 then [Char.ofNat (n - 32)]
  else if n = 0xDF then ['S', 'S']
  else if n = 0x131 then ['I']
  else if n = 0x149 then [Char.ofNat 0x2BC, 'N']
  else if n = 0x17F then ['S']
  else if n = 0x1F0 then ['J', Char.ofNat 0x30C]
  else if n = 0x1E96 then ['H', Char.ofNat 0x331]
  else if n = 0x1E97 then ['T', Char.ofNat 0x308]
  else if n = 0x1E98 then ['W', Char.ofNat 0x30A]
  else if n = 0x1E99 then ['Y', Char.ofNat 0x30A]
  else if n = 0x1E9A then ['A', Char.ofNat 0x2BE]
  else if n = 0xFB00 then ['F', 'F']
  else if n = 0xFB01 then ['F', 'I']
  else if n = 0xFB02 then ['F', 'L']
  else if n = 0xFB03 then ['F', 'F', 'I']
  else if n = 0xFB04 then ['F', 'F', 'L']
  else if n = 0xFB05 then ['S', 'T']
  else if n = 0xFB06 then ['S', 'T']
  else [c]

/-- The method `String.prototype.toUpperCase`, character by character with
`upperChar`: exact on every string whose upper-case form is made of ASCII
characters, which are the strings that can equal a currency code. -/
def toUpperCase (s : String) : String := String.mk (s.data.flatMap upperChar)

/-! ## CurrencyConverter -/

/-- An entry of `supportedCurrencies`. -/
structure Currency where
  code : String
  name : String
  flag : String
  deriving DecidableEq, Repr

/-- The field `supportedCurrencies` set by the constructor. -/
def supportedCurrencies : List Currency :=
  [ ⟨"USD", "Dólar Estadounidense", "🇺🇸"⟩,
    ⟨"EUR", "Euro", "🇪🇺"⟩,
    ⟨"GBP", "Libra Esterlina", "🇬🇧"⟩,
    ⟨"JPY", "Yen Japonés", "🇯🇵"⟩,
    ⟨"AUD", "Dólar Australiano", "🇦🇺"⟩,
    ⟨"CAD", "Dólar Canadiense", "🇨🇦"⟩,
    ⟨"CHF", "Franco Suizo", "🇨🇭"⟩,
    ⟨"CNY", "Yuan Chino", "🇨🇳"⟩,
    ⟨"SEK", "Corona Sueca", "🇸🇪"⟩,
    ⟨"NZD", "Dólar Neozelandés", "🇳🇿"⟩,
    ⟨"MXN", "Peso Mexicano", "🇲🇽"⟩,
    ⟨"SGD", "Dólar de Singapur", "🇸🇬"⟩,
    ⟨"HKD", "Dólar de Hong Kong", "🇭🇰"⟩,
    ⟨"NOK", "Corona Noruega", "🇳🇴"⟩,
    ⟨"BRL", "Real Brasileño", "🇧🇷"⟩,
    ⟨"ARS", "Peso Argentino", "🇦🇷"⟩,
    ⟨"COP", "Peso Colombiano", "🇨🇴"⟩,
    ⟨"CLP", "Peso Chileno", "🇨🇱"⟩,
    ⟨"PEN", "Sol Peruano", "🇵🇪"⟩,
    ⟨"UYU", "Peso Uruguayo", "🇺🇾"⟩ ]

/-- The receiver of the call `currencyCode.toUpperCase()`: the call succeeds
on a string and throws a `TypeError` on every other value (messages as V8
words them). -/
def receiverString : JsVal → Except Thrown String
  | .str s => .ok s
  | .undefined =>
      .error (.error "TypeError" "Cannot read properties of undefined (reading 'toUpperCase')")
  | .null =>
      .error (.error "TypeError" "Cannot read properties of null (reading 'toUpperCase')")
  | _ => .error (.error "TypeError" "currencyCode.toUpperCase is not a function")

/-- The body of `isCurrencySupported` on a string:
`supportedCurrencies.some(currency => currency.code === currencyCode.toUpperCase())`. -/
def isSupportedString (currencyCode : String) : Bool :=
  supportedCurrencies.any fun currency => currency.code == toUpperCase currencyCode

/-- The method `CurrencyConverter.isCurrencySupported`. -/
def isCurrencySupported (currencyCode : JsVal) : Except Thrown Bool :=
  match receiverString currencyCode with
  | .ok s => .ok (isSupportedString s)
  | .error e => .error e

/-- The method `getExchangeRate` of the `apiService` field, as a function of
the state `σ` of that service: it returns (or throws) and leaves a new state. -/
abbrev RateProvider (σ : Type) := σ → String → String → Except Thrown ExchangeData × σ

/-- The `try` block of `CurrencyConverter.convert`.  The template literals of
the two currency checks are only reached after `isCurrencySupported` has
returned, that is on strings. -/
def convertBody {σ : Type} (getExchangeRate : RateProvider σ) (st : σ)
    (fromCurrency toCurrency amount : JsVal) : Except Thrown ConversionResult × σ :=
  match receiverString fromCurrency with
  | .error e => (.error e, st)
  | .ok f =>
    if !isSupportedString f then
      (.ok (.failure (.str ("Moneda no soportada: " ++ f)) fromCurrency toCurrency amount), st)
    else
      match receiverString toCurrency with
      | .error e => (.error e, st)
      | .ok t =>
        if !isSupportedString t then
          (.ok (.failure (.str ("Moneda no soportada: " ++ t)) fromCurrency toCurrency amount), st)
        else
          match amount with
          | .num n =>
            if jsLeZero n then
              (.ok (.failure (.str "La cantidad debe ser un número positivo")
                fromCurrency toCurrency amount), st)
            else
              match getExchangeRate st f t with
              | (.error e, st1) => (.error e, st1)
              | (.ok (.failure error), st1) =>
                  (.ok (.failure error fromCurrency toCurrency amount), st1)
              | (.ok (.success rate lastUpdate), st1) =>
                  (.ok (.success fromCurrency toCurrency amount (jsMul n rate) rate lastUpdate),
                    st1)
          | _ =>
            (.ok (.failure (.str "La cantidad debe ser un número positivo")
              fromCurrency toCurrency amount), st)

/-- The text of `error.message` inside a template literal, for a caught
value `error`; reading a property of `undefined` or `null` throws. -/
def caughtMessage (property : String) : Thrown → Except Thrown String
  | .error _ message => .ok message
  | .undefined =>
      .error (.error "TypeError"
        ("Cannot read properties of undefined (reading '" ++ property ++ "')"))
  | .null =>
      .error (.error "TypeError"
        ("Cannot read properties of null (reading '" ++ property ++ "')"))
  | .primitive => .ok "undefined"

/-- The method `CurrencyConverter.convert`: the `try` block, and the `catch`
clause that turns a thrown value into a failure result. -/
def convert {σ : Type} (getExchangeRate : RateProvider σ) (st : σ)
    (fromCurrency toCurrency amount : JsVal) : Except Thrown ConversionResult × σ :=
  match convertBody getExchangeRate st fromCurrency toCurrency amount with
  | (.ok result, st1) => (.ok result, st1)
  | (.error e, st1) =>
    match caughtMessage "message" e with
    | .ok message =>
        (.ok (.failure (.str ("Error en la conversión: " ++ message))
          fromCurrency toCurrency amount), st1)
    | .error e1 => (.error e1, st1)

/-! ## ApiService -/

/-- A value of the cache: `{ data, timestamp }`. -/
structure CacheEntry where
  data : ExchangeData
  timestamp : Int
  deriving DecidableEq, Repr

/-- The `Map` held in the field `cache`, in insertion order. -/
abbrev Cache := List (String × CacheEntry)

/-- The lookup `cache.has(key)` followed by `cache.get(key)`. -/
def Cache.get : Cache → String → Option CacheEntry
  | [], _ => none
  | (k, v) :: rest, key => if k = key then some v else Cache.get rest key

/-- The update `cache.set(key, value)`: the value of an existing key is
replaced in place, a new key is added at the end. -/
def Cache.set : Cache → String → CacheEntry → Cache
  | [], key, value => [(key, value)]
  | (k, v) :: rest, key, value =>
      if k = key then (k, value) :: rest else (k, v) :: Cache.set rest key value

/-- An instance of `ApiService`.  The field `requests` is not in the source:
it lists, oldest first, the URL of every `fetch` the instance has started. -/
structure ApiService where
  apiKey : String
  baseUrl : String
  cache : Cache
  cacheTimeout : Int
  requests : List String
  deriving DecidableEq, Repr

/-- The constructor of `ApiService`. -/
def ApiService.new : ApiService where
  apiKey := "250d095b89c70a04e229e761"
  baseUrl := "https://v6.exchangerate-api.com/v6"
  cache := []
  cacheTimeout := 5 * 60 * 1000
  requests := []

/-- The fields that `getExchangeRate` reads in the JSON body of the pair
endpoint (`errorType` is the field `error-type`). -/
structure PairBody where
  result : String
  errorType : String
  conversion_rate : JsNum
  time_last_update_unix : JsNum
  deriving DecidableEq, Repr

/-- The fields that `getAllRates` reads in the JSON body of the latest-rates
endpoint. -/
structure LatestBody where
  result : String
  errorType : String
  base_code : String
  conversion_rates : List (String × JsNum)
  time_last_update_unix : JsNum
  deriving DecidableEq, Repr

/-- What `await response.json()` does: it rejects, or yields the body. -/
inductive JsonOutcome (β : Type) where
  | rejects (e : Thrown)
  | body (data : β)

/-- The response of a `fetch`. -/
structure Response (β : Type) where
  ok : Bool
  status : Nat
  statusText : String
  json : JsonOutcome β

/-- What `await fetch(url, ...)` does: it rejects (network failure, timeout),
or resolves with a response. -/
inductive FetchOutcome (β : Type) where
  | rejects (e : Thrown)
  | resolves (response : Response β)

/-- The surroundings of one call of a method of `ApiService`: the value of
`Date.now()` at the cache check, the network, the value of `Date.now()` when
the result is stored, and `toLocaleString ms`, the text of
`new Date(ms).toLocaleString()`. -/
structure CallEnv (β : Type) where
  now : Int
  fetch : String → FetchOutcome β
  storeTime : Int
  toLocaleString : JsNum → String

/-- The object literal `errorMessages` of `getErrorMessage`. -/
def errorMessages : List (String × String) :=
  [ ("unsupported-code", "Código de moneda no soportado"),
    ("malformed-request", "Solicitud mal formada"),
    ("invalid-key", "Clave de API inválida"),
    ("inactive-account", "Cuenta de API inactiva"),
    ("quota-reached", "Cuota de API alcanzada") ]

/-- The property names of `Object.prototype`, which every object literal
inherits. -/
def objectPrototypeProperties : List String :=
  [ "constructor", "hasOwnProperty", "isPrototypeOf", "propertyIsEnumerable",
    "toLocaleString", "toString", "valueOf", "__proto__", "__defineGetter__",
    "__defineSetter__", "__lookupGetter__", "__lookupSetter__" ]

/-- The property read `object[key]` on an object literal with the own
properties `own`: an own property, else a property inherited from
`Object.prototype`, else `undefined`. -/
def getProperty (own : List (String × String)) (key : String) : JsVal :=
  match own.lookup key with
  | some value => .str value
  | none => if key ∈ objectPrototypeProperties then .inherited key else .undefined

/-- Whether a value is truthy (the test made by `||`). -/
def truthy : JsVal → Bool
  | .undefined => false
  | .null => false
  | .bool b => b
  | .num .nan => false
  | .num (.inf _) => true
  | .num (.fin _ m _) => m != 0
  | .str s => s != ""
  | .inherited _ => true

/-- The method `ApiService.getErrorMessage`:
`errorMessages[errorType] || "Error de API: " + errorType`. -/
def getErrorMessage (errorType : String) : JsVal :=
  let found := getProperty errorMessages errorType
  if truthy found then found else .str ("Error de API: " ++ errorType)

/-- The key under which `getExchangeRate` caches a pair. -/
def cacheKey (fromCurrency toCurrency : String) : String :=
  fromCurrency ++ "-" ++ toCurrency

/-- The URL that `getExchangeRate` fetches. -/
def pairUrl (api : ApiService) (fromCurrency toCurrency : String) : String :=
  api.baseUrl ++ "/" ++ api.apiKey ++ "/pair/" ++ fromCurrency ++ "/" ++ toCurrency

/-- The URL that `getAllRates` fetches. -/
def latestUrl (api : ApiService) (baseCurrency : String) : String :=
  api.baseUrl ++ "/" ++ api.apiKey ++ "/latest/" ++ baseCurrency

/-- The `catch` clause of `getExchangeRate`. -/
def catchGetExchangeRate : Thrown → Except Thrown ExchangeData
  | .error name message =>
      if name == "AbortError" then
        .ok (.failure (.str "Timeout: La solicitud tardó demasiado en responder"))
      else .ok (.failure (.str ("Error de conexión: " ++ message)))
  | .undefined =>
      .error (.error "TypeError" "Cannot read properties of undefined (reading 'name')")
  | .null =>
      .error (.error "TypeError" "Cannot read properties of null (reading 'name')")
  | .primitive => .ok (.failure (.str "Error de conexión: undefined"))

/-- The part of `getExchangeRate` after a cache miss: the `try` block and its
`catch` clause. -/
def fetchExchangeRate (env : CallEnv PairBody) (api : ApiService)
    (fromCurrency toCurrency : String) : Except Thrown ExchangeData × ApiService :=
  let url := pairUrl api fromCurrency toCurrency
  let api1 := { api with requests := api.requests ++ [url] }
  match env.fetch url with
  | .rejects e => (catchGetExchangeRate e, api1)
  | .resolves response =>
    if !response.ok then
      (catchGetExchangeRate
        (.error "Error"
          ("HTTP Error: " ++ toString response.status ++ " - " ++ response.statusText)), api1)
    else
      match response.json with
      | .rejects e => (catchGetExchangeRate e, api1)
      | .body data =>
        if data.result == "error" then
          (.ok (.failure (getErrorMessage data.errorType)), api1)
        else
          let result := ExchangeData.success data.conversion_rate
            (env.toLocaleString (jsMul data.time_last_update_unix (JsNum.ofNat 1000)))
          (.ok result,
            { api1 with
              cache := api1.cache.set (cacheKey fromCurrency toCurrency)
                ⟨result, env.storeTime⟩ })

/-- The method `ApiService.getExchangeRate`. -/
def getExchangeRate (env : CallEnv PairBody) : RateProvider ApiService :=
  fun api fromCurrency toCurrency =>
    match api.cache.get (cacheKey fromCurrency toCurrency) with
    | some cachedData =>
      if env.now - cachedData.timestamp < api.cacheTimeout then (.ok cachedData.data, api)
      else fetchExchangeRate env api fromCurrency toCurrency
    | none => fetchExchangeRate env api fromCurrency toCurrency

/-- The object returned by `getAllRates`. -/
inductive AllRates where
  | failure (error : JsVal)
  | success (baseCurrency : String) (rates : List (String × JsNum)) (lastUpdate : String)
  deriving DecidableEq, Repr

/-- The `catch` clause of `getAllRates`. -/
def catchGetAllRates (e : Thrown) : Except Thrown AllRates :=
  match caughtMessage "message" e with
  | .ok message => .ok (.failure (.str ("Error al obtener tasas: " ++ message)))
  | .error e1 => .error e1

/-- The method `ApiService.getAllRates`. -/
def getAllRates (env : CallEnv LatestBody) (api : ApiService) (baseCurrency : String) :
    Except Thrown AllRates × ApiService :=
  let url := latestUrl api baseCurrency
  let api1 := { api with requests := api.requests ++ [url] }
  match env.fetch url with
  | .rejects e => (catchGetAllRates e, api1)
  | .resolves response =>
    if !response.ok then
      (catchGetAllRates (.error "Error" ("HTTP Error: " ++ toString response.status)), api1)
    else
      match response.json with
      | .rejects e => (catchGetAllRates e, api1)
      | .body data =>
        if data.result == "error" then
          (.ok (.failure (getErrorMessage data.errorType)), api1)
        else
          (.ok (.success data.base_code data.conversion_rates
            (env.toLocaleString (jsMul data.time_last_update_unix (JsNum.ofNat 1000)))), api1)

/-- The method `ApiService.clearCache`. -/
def clearCache (api : ApiService) : ApiService := { api with cache := [] }

/-- The object returned by `getCacheStats`. -/
structure CacheStats where
  size : Nat
  timeout : Int
  deriving DecidableEq, Repr

/-- The method `ApiService.getCacheStats`. -/
def getCacheStats (api : ApiService) : CacheStats := ⟨api.cache.length, api.cacheTimeout⟩

/-- One call of a method of `ApiService`. -/
inductive ApiCall where
  | getExchangeRate (env : CallEnv PairBody) (fromCurrency toCurrency : String)
  | getAllRates (env : CallEnv LatestBody) (baseCurrency : String)
  | getErrorMessage (errorType : String)
  | clearCache
  | getCacheStats

/-- The instance after one call. -/
def ApiCall.run : ApiCall → ApiService → ApiService
  | .getExchangeRate env f t, api => (Convercoin.getExchangeRate env api f t).2
  | .getAllRates env b, api => (Convercoin.getAllRates env api b).2
  | .getErrorMessage _, api => api
  | .clearCache, api => Convercoin.clearCache api
  | .getCacheStats, api => api

/-- The instance after a sequence of calls, made one after the other. -/
def runCalls (calls : List ApiCall) (api : ApiService) : ApiService :=
  calls.foldl (fun a c => c.run a) api

/-- Calls `getExchangeRate(fromCurrency, toCurrency)` once per element of
`envs`, one after the other: the results in order, and the final instance. -/
def getExchangeRateSeq (fromCurrency toCurrency : String) :
    List (CallEnv PairBody) → ApiService → List (Except Thrown ExchangeData) × ApiService
  | [], api => ([], api)
  | env :: envs, api =>
    let step := getExchangeRate env api fromCurrency toCurrency
    let rest := getExchangeRateSeq fromCurrency toCurrency envs step.2
    (step.1 :: rest.1, rest.2)

/-! ## Definitions used to state the properties -/

/-- The 20 codes of the supported list. -/
def supportedCodes : List String :=
  [ "USD", "EUR", "GBP", "JPY", "AUD", "CAD", "CHF", "CNY", "SEK", "NZD",
    "MXN", "SGD", "HKD", "NOK", "BRL", "ARS", "COP", "CLP", "PEN", "UYU" ]

/-- Two strings are equal ignoring letter case when they have the same
upper-case form. -/
def equalsIgnoringCase (a b : String) : Prop := toUpperCase a = toUpperCase b

/-- A string of ASCII characters. -/
def isAscii (s : String) : Prop := ∀ c ∈ s.data, c.toNat < 128

/-- The upper-case form of a string of ASCII characters, letter by letter
(`Char.toUpper` maps `a`-`z` to `A`-`Z` and nothing else). -/
def asciiUpper (s : String) : String := String.mk (s.data.map Char.toUpper)

/-- A thrown value that is an `Error` object. -/
def Thrown.isErrorObject : Thrown → Prop
  | .error _ _ => True
  | _ => False

/-- A network whose every `fetch` resolves with status 200 and the given body. -/
def respondWith (body : PairBody) : String → FetchOutcome PairBody :=
  fun _ => .resolves ⟨true, 200, "OK", .body body⟩

/-- A success body of the pair endpoint with rate 0.9. -/
def sampleBody : PairBody :=
  ⟨"success", "", JsNum.zeroPointNine, JsNum.ofNat 1700000000⟩

/-- An error body of the pair endpoint with the given `error-type`. -/
def errorBody (errorType : String) : PairBody :=
  ⟨"error", errorType, .nan, .nan⟩

/-- Surroundings of a call: the clock reads `now` at the cache check and at
the store, every `fetch` answers with `body`, and dates are rendered as the
fixed text `2023-11-14`. -/
def sampleEnv (now : Int) (body : PairBody) : CallEnv PairBody :=
  ⟨now, respondWith body, now, fun _ => "2023-11-14"⟩

/-- Surroundings of a call in which every `fetch` rejects with `undefined`. -/
def rejectingEnv : CallEnv PairBody :=
  ⟨1000, fun _ => .rejects .undefined, 1000, fun _ => "2023-11-14"⟩

/-- A stubbed `getExchangeRate` that throws `undefined` (as a promise rejected
without a reason does) and counts its calls. -/
def throwingUndefined : RateProvider Nat :=
  fun calls _ _ => (.error .undefined, calls + 1)

/-- A stubbed `getExchangeRate` that returns rate 0.9 and counts its calls. -/
def stubProvider : RateProvider Nat :=
  fun calls _ _ => (.ok (.success JsNum.zeroPointNine "2023-11-14"), calls + 1)

/-! ## Supporting lemmas -/

set_option maxRecDepth 8000

theorem supportedCodes_eq : supportedCurrencies.map (fun c => c.code) = supportedCodes := by
  decide

theorem toUpperCase_supportedCodes : ∀ c ∈ supportedCodes, toUpperCase c = c := by
  decide

theorem isSupportedString_iff (s : String) :
    isSupportedString s = true ↔ toUpperCase s ∈ supportedCodes := by
  rw [← supportedCodes_eq]
  simp only [isSupportedString, List.any_eq_true, List.mem_map, beq_iff_eq]

theorem upperChar_ascii (c : Char) (h : c.toNat < 128) : upperChar c = [c.toUpper] := by
  by_cases hl : 97 ≤ c.toNat ∧ c.toNat ≤ 122
  · have h1 : upperChar c = [Char.ofNat (c.toNat - 32)] := by
      rw [upperChar]; exact if_pos hl
    have h2 : c.toUpper = Char.ofNat (c.toNat - 32) := by
      rw [Char.toUpper]; exact if_pos hl
    rw [h1, h2]
  · have h1 : upperChar c = [c] := by
      rw [upperChar]
      show (if 97 ≤ c.toNat ∧ c.toNat ≤ 122 then _ else _) = _
      rw [if_neg hl]
      repeat (first | rfl | rw [if_neg (by omega)])
    have h2 : c.toUpper = c := by
      rw [Char.toUpper]; exact if_neg hl
    rw [h1, h2]

theorem flatMap_upperChar_ascii (l : List Char) (h : ∀ c ∈ l, c.toNat < 128) :
    l.flatMap upperChar = l.map Char.toUpper := by
  induction l with
  | nil => rfl
  | cons c cs ih =>
    have hc : c.toNat < 128 := h c (List.mem_cons_self c cs)
    have hcs : ∀ d ∈ cs, d.toNat < 128 := fun d hd => h d (List.mem_cons_of_mem c hd)
    rw [List.flatMap_cons, upperChar_ascii c hc, ih hcs]
    rfl

theorem toUpperCase_ascii (s : String) (h : isAscii s) : toUpperCase s = asciiUpper s := by
  unfold toUpperCase asciiUpper
  rw [flatMap_upperChar_ascii s.data h]

/-! ## isCurrencySupported -/

/-- C7: for every string `s`, `isCurrencySupported(s)` returns a boolean, and
it returns `true` exactly when `s` equals, ignoring letter case, one of the
20 supported codes; for a string of ASCII characters that is when its
letter-by-letter upper-case form is one of the 20 codes.  It returns `false`
for `INVALID` and `true` for both `usd` and `USD`. -/
theorem isCurrencySupported_iff (s : String) :
    (∃ b : Bool, isCurrencySupported (.str s) = .ok b ∧
      (b = true ↔ ∃ c ∈ supportedCodes, equalsIgnoringCase s c) ∧
      (isAscii s → (b = true ↔ asciiUpper s ∈ supportedCodes))) ∧
    supportedCurrencies.map (fun c => c.code) = supportedCodes ∧
    supportedCodes.length = 20 ∧
    isCurrencySupported (.str "INVALID") = .ok false ∧
    isCurrencySupported (.str "usd") = .ok true ∧
    isCurrencySupported (.str "USD") = .ok true := by
  refine ⟨⟨isSupportedString s, rfl, ?_, ?_⟩, supportedCodes_eq, rfl, ?_, ?_, ?_⟩
  · rw [isSupportedString_iff]
    constructor
    · intro h
      exact ⟨toUpperCase s, h, (toUpperCase_supportedCodes _ h).symm⟩
    · rintro ⟨c, hc, h⟩
      have h1 : toUpperCase s = c := h.trans (toUpperCase_supportedCodes c hc)
      rw [h1]
      exact hc
  · intro hs
    rw [isSupportedString_iff, toUpperCase_ascii s hs]
  · decide
  · decide
  · decide

/-! ## getErrorMessage -/

theorem getErrorMessage_known :
    getErrorMessage "unsupported-code" = .str "Código de moneda no soportado" ∧
    getErrorMessage "malformed-request" = .str "Solicitud mal formada" ∧
    getErrorMessage "invalid-key" = .str "Clave de API inválida" ∧
    getErrorMessage "inactive-account" = .str "Cuenta de API inactiva" ∧
    getErrorMessage "quota-reached" = .str "Cuota de API alcanzada" := by
  decide

theorem getErrorMessage_fallback (c : String) (h1 : errorMessages.lookup c = none)
    (h2 : c ∉ objectPrototypeProperties) :
    getErrorMessage c = .str ("Error de API: " ++ c) := by
  simp [getErrorMessage, getProperty, h1, h2, truthy]

theorem getErrorMessage_inherited (c : String) (h : c ∈ objectPrototypeProperties) :
    getErrorMessage c = .inherited c := by
  have h1 : errorMessages.lookup c = none := by
    revert c
    decide
  simp [getErrorMessage, getProperty, h1, h, truthy]

theorem fetchExchangeRate_error_body (env : CallEnv PairBody) (api : ApiService)
    (fromCurrency toCurrency statusText : String) (status : Nat) (data : PairBody)
    (hfetch : env.fetch (pairUrl api fromCurrency toCurrency) =
      .resolves ⟨true, status, statusText, .body data⟩)
    (herr : data.result = "error") :
    (fetchExchangeRate env api fromCurrency toCurrency).1 =
      .ok (.failure (getErrorMessage data.errorType)) := by
  simp [fetchExchangeRate, hfetch, herr]

/-- C6, evaluated at the error types `constructor` and `toString`:
`getErrorMessage` returns the built-in inherited from `Object.prototype`, not
the fallback message, and `getExchangeRate` puts that value in the `error`
field of its result. -/
theorem getErrorMessage_constructor :
    getErrorMessage "constructor" = .inherited "constructor" ∧
    getErrorMessage "constructor" ≠ .str "Error de API: constructor" ∧
    getErrorMessage "toString" = .inherited "toString" ∧
    getErrorMessage "toString" ≠ .str "Error de API: toString" ∧
    (getExchangeRate (sampleEnv 0 (errorBody "constructor")) ApiService.new "USD" "EUR").1 =
      .ok (.failure (.inherited "constructor")) := by
  decide

/-! ## The cache -/

theorem Cache.get_set_self (c : Cache) (key : String) (value : CacheEntry) :
    (c.set key value).get key = some value := by
  induction c with
  | nil => simp [Cache.set, Cache.get]
  | cons p rest ih =>
    obtain ⟨k, v⟩ := p
    by_cases h : k = key
    · simp [Cache.set, Cache.get, h]
    · simp [Cache.set, Cache.get, h, ih]

theorem Cache.get_set_ne (c : Cache) (key other : String) (value : CacheEntry)
    (hne : key ≠ other) : (c.set key value).get other = c.get other := by
  induction c with
  | nil => simp [Cache.set, Cache.get, hne]
  | cons p rest ih =>
    obtain ⟨k, v⟩ := p
    by_cases h : k = key
    · subst h
      simp [Cache.set, Cache.get, hne]
    · simp [Cache.set, Cache.get, h, ih]

theorem fetchExchangeRate_frame (env : CallEnv PairBody) (api : ApiService)
    (fromCurrency toCurrency : String) :
    (fetchExchangeRate env api fromCurrency toCurrency).2.requests =
        api.requests ++ [pairUrl api fromCurrency toCurrency] ∧
      (fetchExchangeRate env api fromCurrency toCurrency).2.cacheTimeout = api.cacheTimeout ∧
      (fetchExchangeRate env api fromCurrency toCurrency).2.apiKey = api.apiKey ∧
      (fetchExchangeRate env api fromCurrency toCurrency).2.baseUrl = api.baseUrl ∧
      ∀ other, cacheKey fromCurrency toCurrency ≠ other →
        (fetchExchangeRate env api fromCurrency toCurrency).2.cache.get other =
          api.cache.get other := by
  unfold fetchExchangeRate
  simp only []
  cases env.fetch (pairUrl api fromCurrency toCurrency) with
  | rejects e => simp
  | resolves response =>
    by_cases hok : response.ok = true
    · cases hj : response.json with
      | rejects e => simp [hok, hj]
      | body data =>
        by_cases herr : data.result = "error"
        · simp [hok, hj, herr]
        · simp only [hok, hj, herr, Bool.not_true, beq_iff_eq, if_false, Bool.false_eq_true]
          refine ⟨trivial, trivial, trivial, trivial, ?_⟩
          intro other hne
          exact Cache.get_set_ne _ _ _ _ hne
    · simp [hok]

theorem getExchangeRate_frame (env : CallEnv PairBody) (api : ApiService)
    (fromCurrency toCurrency : String) :
    (getExchangeRate env api fromCurrency toCurrency).2.cacheTimeout = api.cacheTimeout ∧
      (getExchangeRate env api fromCurrency toCurrency).2.apiKey = api.apiKey ∧
      (getExchangeRate env api fromCurrency toCurrency).2.baseUrl = api.baseUrl ∧
      ∀ other, cacheKey fromCurrency toCurrency ≠ other →
        (getExchangeRate env api fromCurrency toCurrency).2.cache.get other =
          api.cache.get other := by
  have hf := fetchExchangeRate_frame env api fromCurrency toCurrency
  unfold getExchangeRate
  cases hget : api.cache.get (cacheKey fromCurrency toCurrency) with
  | none => exact hf.2
  | some cachedData =>
    by_cases hfresh : env.now - cachedData.timestamp < api.cacheTimeout
    · simp [hfresh]
    · simp only [hfresh, if_false]
      exact hf.2

theorem getAllRates_frame (env : CallEnv LatestBody) (api : ApiService) (baseCurrency : String) :
    (getAllRates env api baseCurrency).2.cacheTimeout = api.cacheTimeout ∧
      (getAllRates env api baseCurrency).2.cache = api.cache := by
  unfold getAllRates
  simp only []
  cases env.fetch (latestUrl api baseCurrency) with
  | rejects e => simp
  | resolves response =>
    by_cases hok : response.ok = true
    · cases hj : response.json with
      | rejects e => simp [hok, hj]
      | body data =>
        by_cases herr : data.result = "error"
        · simp [hok, hj, herr]
        · simp [hok, hj, herr]
    · simp [hok]

theorem ApiCall.run_cacheTimeout (call : ApiCall) (api : ApiService) :
    (call.run api).cacheTimeout = api.cacheTimeout := by
  cases call with
  | getExchangeRate env f t => exact (getExchangeRate_frame env api f t).1
  | getAllRates env b => exact (getAllRates_frame env api b).1
  | getErrorMessage c => rfl
  | clearCache => rfl
  | getCacheStats => rfl

theorem runCalls_cacheTimeout (calls : List ApiCall) (api : ApiService) :
    (runCalls calls api).cacheTimeout = api.cacheTimeout := by
  induction calls generalizing api with
  | nil => rfl
  | cons call rest ih =>
    show (runCalls rest (call.run api)).cacheTimeout = api.cacheTimeout
    rw [ih, ApiCall.run_cacheTimeout]

/-- C9: in every state of an `ApiService` (any cache content; in particular
the state after any sequence of calls on a new instance), `clearCache()`
followed by `getCacheStats()` gives size 0 and leaves the timeout field
unchanged, which is 300000 ms on every instance reached from the
constructor; a new instance has size 0 and a timeout greater than 0. -/
theorem clearCache_getCacheStats :
    (∀ api : ApiService, getCacheStats (clearCache api) = ⟨0, api.cacheTimeout⟩) ∧
    (∀ calls : List ApiCall,
      getCacheStats (clearCache (runCalls calls ApiService.new)) = ⟨0, 300000⟩) ∧
    getCacheStats ApiService.new = ⟨0, 300000⟩ ∧
    0 < (getCacheStats ApiService.new).timeout := by
  refine ⟨fun api => rfl, ?_, by decide, by decide⟩
  intro calls
  have h := runCalls_cacheTimeout calls ApiService.new
  show (⟨0, (runCalls calls ApiService.new).cacheTimeout⟩ : CacheStats) = ⟨0, 300000⟩
  rw [h]
  decide

/-! ## getExchangeRate and the TTL -/

theorem getExchangeRate_hit (env : CallEnv PairBody) (api : ApiService)
    (fromCurrency toCurrency : String) (entry : CacheEntry)
    (hget : api.cache.get (cacheKey fromCurrency toCurrency) = some entry)
    (hfresh : env.now - entry.timestamp < api.cacheTimeout) :
    getExchangeRate env api fromCurrency toCurrency = (.ok entry.data, api) := by
  simp [getExchangeRate, hget, hfresh]

theorem getExchangeRate_expired (env : CallEnv PairBody) (api : ApiService)
    (fromCurrency toCurrency : String) (entry : CacheEntry)
    (hget : api.cache.get (cacheKey fromCurrency toCurrency) = some entry)
    (hold : api.cacheTimeout ≤ env.now - entry.timestamp) :
    getExchangeRate env api fromCurrency toCurrency =
      fetchExchangeRate env api fromCurrency toCurrency := by
  have h : ¬ env.now - entry.timestamp < api.cacheTimeout := not_lt.mpr hold
  simp [getExchangeRate, hget, h]

theorem getExchangeRate_miss (env : CallEnv PairBody) (api : ApiService)
    (fromCurrency toCurrency : String)
    (hget : api.cache.get (cacheKey fromCurrency toCurrency) = none) :
    getExchangeRate env api fromCurrency toCurrency =
      fetchExchangeRate env api fromCurrency toCurrency := by
  simp [getExchangeRate, hget]

theorem fetchExchangeRate_success (env : CallEnv PairBody) (api : ApiService)
    (fromCurrency toCurrency statusText : String) (status : Nat) (data : PairBody)
    (hfetch : env.fetch (pairUrl api fromCurrency toCurrency) =
      .resolves ⟨true, status, statusText, .body data⟩)
    (hok : data.result ≠ "error") :
    fetchExchangeRate env api fromCurrency toCurrency =
      (.ok (.success data.conversion_rate
          (env.toLocaleString (jsMul data.time_last_update_unix (JsNum.ofNat 1000)))),
        { api with
          requests := api.requests ++ [pairUrl api fromCurrency toCurrency]
          cache := api.cache.set (cacheKey fromCurrency toCurrency)
            ⟨.success data.conversion_rate
              (env.toLocaleString (jsMul data.time_last_update_unix (JsNum.ofNat 1000))),
              env.storeTime⟩ }) := by
  simp [fetchExchangeRate, hfetch, hok]

theorem getExchangeRateSeq_hits (fromCurrency toCurrency : String) (api : ApiService)
    (entry : CacheEntry)
    (hget : api.cache.get (cacheKey fromCurrency toCurrency) = some entry)
    (envs : List (CallEnv PairBody))
    (hfresh : ∀ env ∈ envs, env.now - entry.timestamp < api.cacheTimeout) :
    getExchangeRateSeq fromCurrency toCurrency envs api =
      (envs.map (fun _ => .ok entry.data), api) := by
  induction envs with
  | nil => rfl
  | cons env rest ih =>
    have h1 := getExchangeRate_hit env api fromCurrency toCurrency entry hget
      (hfresh env (List.mem_cons_self env rest))
    have h2 := ih (fun e he => hfresh e (List.mem_cons_of_mem env he))
    simp only [getExchangeRateSeq, h1, h2, List.map_cons]

theorem getExchangeRateSeq_cons (fromCurrency toCurrency : String) (env : CallEnv PairBody)
    (envs : List (CallEnv PairBody)) (api : ApiService) :
    getExchangeRateSeq fromCurrency toCurrency (env :: envs) api =
      ((getExchangeRate env api fromCurrency toCurrency).1 ::
          (getExchangeRateSeq fromCurrency toCurrency envs
            (getExchangeRate env api fromCurrency toCurrency).2).1,
        (getExchangeRateSeq fromCurrency toCurrency envs
          (getExchangeRate env api fromCurrency toCurrency).2).2) := rfl

theorem getExchangeRateSeq_append (fromCurrency toCurrency : String)
    (xs ys : List (CallEnv PairBody)) (api : ApiService) :
    getExchangeRateSeq fromCurrency toCurrency (xs ++ ys) api =
      ((getExchangeRateSeq fromCurrency toCurrency xs api).1 ++
          (getExchangeRateSeq fromCurrency toCurrency ys
            (getExchangeRateSeq fromCurrency toCurrency xs api).2).1,
        (getExchangeRateSeq fromCurrency toCurrency ys
          (getExchangeRateSeq fromCurrency toCurrency xs api).2).2) := by
  induction xs generalizing api with
  | nil => rfl
  | cons x rest ih =>
    rw [List.cons_append, getExchangeRateSeq_cons, getExchangeRateSeq_cons, ih]
    rfl

/-- C5: on an instance with the TTL of 300000 ms and no cache entry for the
pair, a call of `getExchangeRate(from, to)` that the provider answers
successfully starts exactly one network request and stores its result with
the timestamp `t0` read from the clock; every sequence of later calls for
the pair made at times `t` with `t - t0 < 300000` starts no request and
returns the stored result each time, leaving the instance as it is; and a
call at a time `t` with `t - t0 ≥ 300000` starts a second request. -/
theorem getExchangeRate_cache_ttl (api : ApiService) (fromCurrency toCurrency : String)
    (env0 : CallEnv PairBody) (status : Nat) (statusText : String) (data : PairBody)
    (hT : api.cacheTimeout = 300000)
    (hmiss : api.cache.get (cacheKey fromCurrency toCurrency) = none)
    (hfetch : env0.fetch (pairUrl api fromCurrency toCurrency) =
      .resolves ⟨true, status, statusText, .body data⟩)
    (hok : data.result ≠ "error") :
    ∃ (result : ExchangeData) (api1 : ApiService),
      getExchangeRate env0 api fromCurrency toCurrency = (.ok result, api1) ∧
      result = .success data.conversion_rate
        (env0.toLocaleString (jsMul data.time_last_update_unix (JsNum.ofNat 1000))) ∧
      api1.requests = api.requests ++ [pairUrl api fromCurrency toCurrency] ∧
      api1.cache.get (cacheKey fromCurrency toCurrency) = some ⟨result, env0.storeTime⟩ ∧
      (∀ envs : List (CallEnv PairBody),
        (∀ env ∈ envs, env.now - env0.storeTime < 300000) →
        getExchangeRateSeq fromCurrency toCurrency envs api1 =
          (envs.map (fun _ => .ok result), api1)) ∧
      (∀ env : CallEnv PairBody, 300000 ≤ env.now - env0.storeTime →
        (getExchangeRate env api1 fromCurrency toCurrency).2.requests =
          api.requests ++ [pairUrl api fromCurrency toCurrency,
            pairUrl api fromCurrency toCurrency]) := by
  have hcall := getExchangeRate_miss env0 api fromCurrency toCurrency hmiss
  rw [fetchExchangeRate_success env0 api fromCurrency toCurrency statusText status data
    hfetch hok] at hcall
  let result : ExchangeData := .success data.conversion_rate
    (env0.toLocaleString (jsMul data.time_last_update_unix (JsNum.ofNat 1000)))
  let api1 : ApiService :=
    { api with
      requests := api.requests ++ [pairUrl api fromCurrency toCurrency]
      cache := api.cache.set (cacheKey fromCurrency toCurrency) ⟨result, env0.storeTime⟩ }
  have hget : api1.cache.get (cacheKey fromCurrency toCurrency) =
      some ⟨result, env0.storeTime⟩ := Cache.get_set_self _ _ _
  have hT1 : api1.cacheTimeout = 300000 := hT
  refine ⟨result, api1, hcall, rfl, rfl, hget, ?_, ?_⟩
  · intro envs hfresh
    exact getExchangeRateSeq_hits fromCurrency toCurrency api1 ⟨result, env0.storeTime⟩ hget
      envs (fun env he => lt_of_lt_of_eq (hfresh env he) hT1.symm)
  · intro env hold
    rw [getExchangeRate_expired env api1 fromCurrency toCurrency ⟨result, env0.storeTime⟩ hget
      (le_of_eq_of_le hT1 hold)]
    rw [(fetchExchangeRate_frame env api1 fromCurrency toCurrency).1]
    show (api.requests ++ [pairUrl api fromCurrency toCurrency]) ++
      [pairUrl api fromCurrency toCurrency] = _
    rw [List.append_assoc]
    rfl

/-- Witness of C5 on a new instance for the pair USD, EUR: the first call and
a second one 299999 ms later start one request between them; a third call
300000 ms after the first starts the second request. -/
theorem getExchangeRate_cache_ttl_witness :
    ApiService.new.cacheTimeout = 300000 ∧
    ApiService.new.cache.get (cacheKey "USD" "EUR") = none ∧
    sampleBody.result ≠ "error" ∧
    (getExchangeRateSeq "USD" "EUR"
      [sampleEnv 1000 sampleBody, sampleEnv 300999 sampleBody] ApiService.new).2.requests =
      [pairUrl ApiService.new "USD" "EUR"] ∧
    (getExchangeRateSeq "USD" "EUR"
      [sampleEnv 1000 sampleBody, sampleEnv 300999 sampleBody, sampleEnv 301000 sampleBody]
      ApiService.new).2.requests =
      [pairUrl ApiService.new "USD" "EUR", pairUrl ApiService.new "USD" "EUR"] := by
  obtain ⟨result, api1, h1, _, h3, _, h5, h6⟩ :=
    getExchangeRate_cache_ttl ApiService.new "USD" "EUR" (sampleEnv 1000 sampleBody) 200 "OK"
      sampleBody (by decide) (by decide) rfl (by decide)
  have hseq := h5 [sampleEnv 300999 sampleBody] (by
    intro env he
    rw [List.mem_singleton.mp he]
    decide)
  have hexp := h6 (sampleEnv 301000 sampleBody) (by decide)
  refine ⟨by decide, by decide, by decide, ?_, ?_⟩
  · rw [getExchangeRateSeq_cons, h1]
    show (getExchangeRateSeq "USD" "EUR" [sampleEnv 300999 sampleBody] api1).2.requests = _
    rw [hseq]
    exact h3
  · rw [getExchangeRateSeq_cons, h1]
    show (getExchangeRateSeq "USD" "EUR"
      ([sampleEnv 300999 sampleBody] ++ [sampleEnv 301000 sampleBody]) api1).2.requests = _
    rw [getExchangeRateSeq_append, hseq]
    exact hexp

/-! ## The cache key -/

theorem append_separator_inj {α : Type} (x : α) :
    ∀ (a c b d : List α), x ∉ a → x ∉ c → a ++ x :: b = c ++ x :: d → a = c ∧ b = d := by
  intro a
  induction a with
  | nil =>
    intro c b d _ hc h
    cases c with
    | nil =>
      simp only [List.nil_append, List.cons.injEq, true_and] at h
      exact ⟨rfl, h⟩
    | cons y ys =>
      simp only [List.nil_append, List.cons_append, List.cons.injEq] at h
      exact absurd (h.1 ▸ List.mem_cons_self y ys) hc
  | cons z zs ih =>
    intro c b d ha hc h
    cases c with
    | nil =>
      simp only [List.nil_append, List.cons_append, List.cons.injEq] at h
      exact absurd (h.1 ▸ List.mem_cons_self z zs) ha
    | cons y ys =>
      simp only [List.cons_append, List.cons.injEq] at h
      have hzs : x ∉ zs := fun hm => ha (List.mem_cons_of_mem z hm)
      have hys : x ∉ ys := fun hm => hc (List.mem_cons_of_mem y hm)
      obtain ⟨h1, h2⟩ := ih ys b d hzs hys h.2
      exact ⟨by rw [h.1, h1], h2⟩

theorem cacheKey_data (a b : String) : (cacheKey a b).data = a.data ++ '-' :: b.data := by
  simp [cacheKey]

theorem cacheKey_inj (a b c d : String) (ha : '-' ∉ a.data) (hc : '-' ∉ c.data)
    (h : cacheKey a b = cacheKey c d) : a = c ∧ b = d := by
  have hdata := congrArg String.data h
  rw [cacheKey_data, cacheKey_data] at hdata
  obtain ⟨h1, h2⟩ := append_separator_inj '-' a.data c.data b.data d.data ha hc hdata
  exact ⟨String.ext h1, String.ext h2⟩

theorem upperChar_hyphen : upperChar '-' = ['-'] := by decide

theorem hyphen_mem_toUpperCase (s : String) (h : '-' ∈ s.data) :
    '-' ∈ (toUpperCase s).data := by
  show '-' ∈ s.data.flatMap upperChar
  rw [List.mem_flatMap]
  exact ⟨'-', h, by rw [upperChar_hyphen]; exact List.mem_singleton.mpr rfl⟩

theorem supportedCodes_no_hyphen : ∀ c ∈ supportedCodes, '-' ∉ c.data := by
  decide

theorem isSupportedString_no_hyphen (s : String) (h : isSupportedString s = true) :
    '-' ∉ s.data := by
  intro hmem
  rw [isSupportedString_iff] at h
  exact supportedCodes_no_hyphen _ h (hyphen_mem_toUpperCase s hmem)

/-- C10 as stated fails: the distinct ordered pairs (`A-B`, `C`) and (`A`,
`B-C`) have the same cache key, and on a new instance the rate cached by
`getExchangeRate("A-B", "C")` is returned one second later by
`getExchangeRate("A", "B-C")`, which starts no network request (its own
request would have been answered with an error body). -/
theorem cacheKey_collision :
    (("A-B", "C") : String × String) ≠ ("A", "B-C") ∧
    cacheKey "A-B" "C" = cacheKey "A" "B-C" ∧
    (getExchangeRate (sampleEnv 1000 sampleBody) ApiService.new "A-B" "C").1 =
      .ok (.success JsNum.zeroPointNine "2023-11-14") ∧
    getExchangeRate (sampleEnv 2000 (errorBody "unsupported-code"))
        (getExchangeRate (sampleEnv 1000 sampleBody) ApiService.new "A-B" "C").2 "A" "B-C" =
      (.ok (.success JsNum.zeroPointNine "2023-11-14"),
        (getExchangeRate (sampleEnv 1000 sampleBody) ApiService.new "A-B" "C").2) ∧
    (getExchangeRate (sampleEnv 1000 sampleBody) ApiService.new "A-B" "C").2.requests =
      [pairUrl ApiService.new "A-B" "C"] := by
  decide

/-- C10, amended: for all code strings `a`, `b`, `c`, `d` with
`(a, b) ≠ (c, d)` whose source codes `a` and `c` contain no `-`, the keys
of the two ordered pairs are distinct, and a call of `getExchangeRate(a, b)`
leaves whatever the cache holds (or does not hold) for `(c, d)` as it is, so
what it caches is never returned by `getExchangeRate(c, d)`. -/
theorem cacheKey_distinct_of_no_hyphen (a b c d : String)
    (ha : '-' ∉ a.data) (hc : '-' ∉ c.data) (hne : (a, b) ≠ (c, d)) :
    cacheKey a b ≠ cacheKey c d ∧
    ∀ (env : CallEnv PairBody) (api : ApiService),
      (getExchangeRate env api a b).2.cache.get (cacheKey c d) =
        api.cache.get (cacheKey c d) := by
  have hkey : cacheKey a b ≠ cacheKey c d := by
    intro h
    obtain ⟨h1, h2⟩ := cacheKey_inj a b c d ha hc h
    exact hne (by rw [h1, h2])
  exact ⟨hkey, fun env api => (getExchangeRate_frame env api a b).2.2.2 _ hkey⟩

/-- Witness of C10 (amended): (`EUR`, `USD`) and (`USD`, `EUR`) have distinct
keys, and caching the first pair on a new instance leaves no entry for the
second. -/
theorem cacheKey_distinct_witness :
    '-' ∉ "EUR".data ∧ '-' ∉ "USD".data ∧
    (("EUR", "USD") : String × String) ≠ ("USD", "EUR") ∧
    cacheKey "EUR" "USD" ≠ cacheKey "USD" "EUR" ∧
    (getExchangeRate (sampleEnv 1000 sampleBody) ApiService.new "EUR" "USD").2.cache.get
      (cacheKey "USD" "EUR") = none :=
  ⟨by decide, by decide, by decide,
    (cacheKey_distinct_of_no_hyphen "EUR" "USD" "USD" "EUR" (by decide) (by decide)
      (by decide)).1,
    (cacheKey_distinct_of_no_hyphen "EUR" "USD" "USD" "EUR" (by decide) (by decide)
      (by decide)).2 (sampleEnv 1000 sampleBody) ApiService.new⟩

/-! ## convert: validation -/

theorem isCurrencySupported_str (s : String) (b : Bool) :
    isCurrencySupported (.str s) = .ok b ↔ isSupportedString s = b := by
  simp [isCurrencySupported, receiverString]

theorem jsLeZero_of_jsGtZero (n : JsNum) (h : jsGtZero n = true) : jsLeZero n = false := by
  cases n with
  | nan => simp [jsGtZero] at h
  | inf neg => simpa [jsGtZero, jsLeZero] using h
  | fin neg m e =>
    simp only [jsGtZero, Bool.and_eq_true, Bool.not_eq_true', bne_iff_ne, ne_eq] at h
    simp [jsLeZero, h.1, h.2]

theorem convert_of_unsupported_from {σ : Type} (api : RateProvider σ) (st : σ)
    (fromCurrency : String) (toCurrency amount : JsVal)
    (h : isSupportedString fromCurrency = false) :
    convert api st (.str fromCurrency) toCurrency amount =
      (.ok (.failure (.str ("Moneda no soportada: " ++ fromCurrency)) (.str fromCurrency)
        toCurrency amount), st) := by
  simp [convert, convertBody, receiverString, h]

theorem convert_of_unsupported_to {σ : Type} (api : RateProvider σ) (st : σ)
    (fromCurrency toCurrency : String) (amount : JsVal)
    (hf : isSupportedString fromCurrency = true) (ht : isSupportedString toCurrency = false) :
    convert api st (.str fromCurrency) (.str toCurrency) amount =
      (.ok (.failure (.str ("Moneda no soportada: " ++ toCurrency)) (.str fromCurrency)
        (.str toCurrency) amount), st) := by
  simp [convert, convertBody, receiverString, hf, ht]

theorem convert_of_bad_amount {σ : Type} (api : RateProvider σ) (st : σ)
    (fromCurrency toCurrency : String) (amount : JsVal)
    (hf : isSupportedString fromCurrency = true) (ht : isSupportedString toCurrency = true)
    (ha : ∀ n, amount = .num n → jsLeZero n = true) :
    convert api st (.str fromCurrency) (.str toCurrency) amount =
      (.ok (.failure (.str "La cantidad debe ser un número positivo") (.str fromCurrency)
        (.str toCurrency) amount), st) := by
  cases amount with
  | num n => simp [convert, convertBody, receiverString, hf, ht, ha n rfl]
  | undefined => simp [convert, convertBody, receiverString, hf, ht]
  | null => simp [convert, convertBody, receiverString, hf, ht]
  | bool b => simp [convert, convertBody, receiverString, hf, ht]
  | str s => simp [convert, convertBody, receiverString, hf, ht]
  | inherited p => simp [convert, convertBody, receiverString, hf, ht]

theorem convert_of_provider_success {σ : Type} (api : RateProvider σ) (st st1 : σ)
    (fromCurrency toCurrency : String) (amount rate : JsNum) (lastUpdate : String)
    (hf : isSupportedString fromCurrency = true) (ht : isSupportedString toCurrency = true)
    (ha : jsLeZero amount = false)
    (hp : api st fromCurrency toCurrency = (.ok (.success rate lastUpdate), st1)) :
    convert api st (.str fromCurrency) (.str toCurrency) (.num amount) =
      (.ok (.success (.str fromCurrency) (.str toCurrency) (.num amount) (jsMul amount rate)
        rate lastUpdate), st1) := by
  simp [convert, convertBody, receiverString, hf, ht, ha, hp]

/-- C1: for supported currency codes `from` and `to`, a number `amount > 0`
and a provider whose `getExchangeRate(from, to)` returns
`{ success: true, rate: r, lastUpdate: u }`, `convert(from, to, amount)`
returns a success result with `convertedAmount = amount * r` (the binary64
product), `exchangeRate = r`, `lastUpdate = u`, and `from`, `to`, `amount`
echoed. -/
theorem convert_success {σ : Type} (api : RateProvider σ) (st st1 : σ)
    (fromCurrency toCurrency : String) (amount r : JsNum) (u : String)
    (hf : isCurrencySupported (.str fromCurrency) = .ok true)
    (ht : isCurrencySupported (.str toCurrency) = .ok true)
    (ha : jsGtZero amount = true)
    (hp : api st fromCurrency toCurrency = (.ok (.success r u), st1)) :
    convert api st (.str fromCurrency) (.str toCurrency) (.num amount) =
      (.ok (.success (.str fromCurrency) (.str toCurrency) (.num amount) (jsMul amount r) r u),
        st1) :=
  convert_of_provider_success api st st1 fromCurrency toCurrency amount r u
    ((isCurrencySupported_str _ _).mp hf) ((isCurrencySupported_str _ _).mp ht)
    (jsLeZero_of_jsGtZero amount ha) hp

/-- Witness of C1: `convert("USD", "EUR", 100)` with a stubbed provider that
returns rate 0.9 gives a success result with `convertedAmount` 90. -/
theorem convert_success_witness :
    isCurrencySupported (.str "USD") = .ok true ∧
    isCurrencySupported (.str "EUR") = .ok true ∧
    jsGtZero (JsNum.ofNat 100) = true ∧
    stubProvider 0 "USD" "EUR" = (.ok (.success JsNum.zeroPointNine "2023-11-14"), 1) ∧
    convert stubProvider 0 (.str "USD") (.str "EUR") (.num (JsNum.ofNat 100)) =
      (.ok (.success (.str "USD") (.str "EUR") (.num (JsNum.ofNat 100)) (JsNum.ofNat 90)
        JsNum.zeroPointNine "2023-11-14"), 1) :=
  ⟨by decide, by decide, by decide, rfl,
    (convert_success stubProvider 0 1 "USD" "EUR" (JsNum.ofNat 100) JsNum.zeroPointNine
      "2023-11-14" (by decide) (by decide) (by decide) rfl).trans (by decide)⟩

/-- C2: when `from` or `to` is a string that is not a supported code,
`convert(from, to, amount)` returns a failure result whose message is
`Moneda no soportada: ` followed by the offending code (`from` if it is
unsupported, else `to`), with `from`, `to`, `amount` echoed; this holds
whatever `getExchangeRate` is and leaves the state of the rate service as it
was, so the method is not called: on the real service no request is started
and the cache is unchanged. -/
theorem convert_unsupported_currency {σ : Type} (api : RateProvider σ) (st : σ)
    (fromCurrency toCurrency : String) (amount : JsVal)
    (h : isCurrencySupported (.str fromCurrency) = .ok false ∨
      isCurrencySupported (.str toCurrency) = .ok false) :
    ∃ offending : String,
      offending = (if isCurrencySupported (.str fromCurrency) = .ok false then fromCurrency
        else toCurrency) ∧
      isCurrencySupported (.str offending) = .ok false ∧
      convert api st (.str fromCurrency) (.str toCurrency) amount =
        (.ok (.failure (.str ("Moneda no soportada: " ++ offending)) (.str fromCurrency)
          (.str toCurrency) amount), st) ∧
      ∀ (env : CallEnv PairBody) (service : ApiService),
        (convert (getExchangeRate env) service (.str fromCurrency) (.str toCurrency)
          amount).2 = service := by
  by_cases hf : isCurrencySupported (.str fromCurrency) = .ok false
  · have hf1 := (isCurrencySupported_str _ _).mp hf
    refine ⟨fromCurrency, by rw [if_pos hf], hf, ?_, ?_⟩
    · exact convert_of_unsupported_from api st fromCurrency _ amount hf1
    · intro env service
      rw [convert_of_unsupported_from _ service fromCurrency _ amount hf1]
  · have ht : isCurrencySupported (.str toCurrency) = .ok false := h.resolve_left hf
    have ht1 := (isCurrencySupported_str _ _).mp ht
    have hf1 : isSupportedString fromCurrency = true := by
      cases hb : isSupportedString fromCurrency with
      | true => rfl
      | false => exact absurd ((isCurrencySupported_str _ _).mpr hb) hf
    refine ⟨toCurrency, by rw [if_neg hf], ht, ?_, ?_⟩
    · exact convert_of_unsupported_to api st fromCurrency toCurrency amount hf1 ht1
    · intro env service
      rw [convert_of_unsupported_to _ service fromCurrency toCurrency amount hf1 ht1]

/-- Witness of C2: `convert("INVALID", "USD", 100)` on a new service names
`INVALID` and leaves the service as it was. -/
theorem convert_unsupported_currency_witness :
    isCurrencySupported (.str "INVALID") = .ok false ∧
    convert (getExchangeRate (sampleEnv 1000 sampleBody)) ApiService.new (.str "INVALID")
        (.str "USD") (.num (JsNum.ofNat 100)) =
      (.ok (.failure (.str "Moneda no soportada: INVALID") (.str "INVALID") (.str "USD")
        (.num (JsNum.ofNat 100))), ApiService.new) := by
  obtain ⟨offending, hoff, _, hconv, _⟩ :=
    convert_unsupported_currency (getExchangeRate (sampleEnv 1000 sampleBody)) ApiService.new
      "INVALID" "USD" (.num (JsNum.ofNat 100)) (Or.inl (by decide))
  rw [if_pos (by decide)] at hoff
  rw [hoff] at hconv
  exact ⟨by decide, hconv⟩

/-- C3: for supported currency codes and an amount that is not of number
type, or is a number `<= 0`, `convert` returns the failure result with the
message `La cantidad debe ser un número positivo` and `from`, `to`, `amount`
echoed; this holds whatever `getExchangeRate` is and leaves the state of the
rate service as it was, so the method is not called and, on the real
service, no request is started. -/
theorem convert_invalid_amount {σ : Type} (api : RateProvider σ) (st : σ)
    (fromCurrency toCurrency : String) (amount : JsVal)
    (hf : isCurrencySupported (.str fromCurrency) = .ok true)
    (ht : isCurrencySupported (.str toCurrency) = .ok true)
    (ha : (∀ n, amount ≠ .num n) ∨ ∃ n, amount = .num n ∧ jsLeZero n = true) :
    convert api st (.str fromCurrency) (.str toCurrency) amount =
      (.ok (.failure (.str "La cantidad debe ser un número positivo") (.str fromCurrency)
        (.str toCurrency) amount), st) ∧
    ∀ (env : CallEnv PairBody) (service : ApiService),
      (convert (getExchangeRate env) service (.str fromCurrency) (.str toCurrency)
        amount).2 = service := by
  have hf1 := (isCurrencySupported_str _ _).mp hf
  have ht1 := (isCurrencySupported_str _ _).mp ht
  have ha1 : ∀ n, amount = .num n → jsLeZero n = true := by
    intro n hn
    rcases ha with h | ⟨m, hm, hle⟩
    · exact absurd hn (h n)
    · rw [hm] at hn
      injection hn with hmn
      rw [← hmn]
      exact hle
  refine ⟨convert_of_bad_amount api st fromCurrency toCurrency amount hf1 ht1 ha1, ?_⟩
  intro env service
  rw [convert_of_bad_amount _ service fromCurrency toCurrency amount hf1 ht1 ha1]

/-- Witness of C3: `convert("USD", "EUR", -100)` on a new service. -/
theorem convert_invalid_amount_witness :
    isCurrencySupported (.str "USD") = .ok true ∧
    isCurrencySupported (.str "EUR") = .ok true ∧
    jsLeZero (jsNeg (JsNum.ofNat 100)) = true ∧
    convert (getExchangeRate (sampleEnv 1000 sampleBody)) ApiService.new (.str "USD")
        (.str "EUR") (.num (jsNeg (JsNum.ofNat 100))) =
      (.ok (.failure (.str "La cantidad debe ser un número positivo") (.str "USD")
        (.str "EUR") (.num (jsNeg (JsNum.ofNat 100)))), ApiService.new) :=
  ⟨by decide, by decide, by decide,
    (convert_invalid_amount (getExchangeRate (sampleEnv 1000 sampleBody)) ApiService.new
      "USD" "EUR" (.num (jsNeg (JsNum.ofNat 100))) (by decide) (by decide)
      (Or.inr ⟨_, rfl, by decide⟩)).1⟩

/-- C4 as stated fails: `+Infinity` is of number type and is not a finite
value, yet `convert("USD", "EUR", Infinity)` on a new service calls
`getExchangeRate`, which starts a network request, and returns a success
result. -/
theorem convert_infinity_not_rejected :
    isCurrencySupported (.str "USD") = .ok true ∧
    isCurrencySupported (.str "EUR") = .ok true ∧
    (convert (getExchangeRate (sampleEnv 1000 sampleBody)) ApiService.new (.str "USD")
        (.str "EUR") (.num (.inf false))).1 =
      .ok (.success (.str "USD") (.str "EUR") (.num (.inf false)) (.inf false)
        JsNum.zeroPointNine "2023-11-14") ∧
    (convert (getExchangeRate (sampleEnv 1000 sampleBody)) ApiService.new (.str "USD")
        (.str "EUR") (.num (.inf false))).2.requests = [pairUrl ApiService.new "USD" "EUR"] ∧
    (convert stubProvider 0 (.str "USD") (.str "EUR") (.num (.inf false))).2 = 1 := by
  decide

theorem convert_nan_not_rejected :
    (convert (getExchangeRate (sampleEnv 1000 sampleBody)) ApiService.new (.str "USD")
        (.str "EUR") (.num .nan)).1 =
      .ok (.success (.str "USD") (.str "EUR") (.num .nan) .nan JsNum.zeroPointNine
        "2023-11-14") ∧
    (convert (getExchangeRate (sampleEnv 1000 sampleBody)) ApiService.new (.str "USD")
        (.str "EUR") (.num .nan)).2.requests = [pairUrl ApiService.new "USD" "EUR"] := by
  decide

/-- C4, amended: for supported currency codes, every amount that is not of
number type or is a number `<= 0` makes `convert` short-circuit with a
failure result, whatever `getExchangeRate` is and leaving the state of the
rate service as it was (the method is not called); finiteness is not
checked: with the amount `+Infinity` the method is called, and when it
returns a rate the result is a success. -/
theorem convert_amount_guard {σ : Type} (api : RateProvider σ) (st : σ)
    (fromCurrency toCurrency : String)
    (hf : isCurrencySupported (.str fromCurrency) = .ok true)
    (ht : isCurrencySupported (.str toCurrency) = .ok true) :
    (∀ amount : JsVal,
      ((∀ n, amount ≠ .num n) ∨ ∃ n, amount = .num n ∧ jsLeZero n = true) →
      ∃ result, result.isSuccess = false ∧
        convert api st (.str fromCurrency) (.str toCurrency) amount = (.ok result, st)) ∧
    (∀ (r : JsNum) (u : String) (st1 : σ),
      api st fromCurrency toCurrency = (.ok (.success r u), st1) →
      convert api st (.str fromCurrency) (.str toCurrency) (.num (.inf false)) =
        (.ok (.success (.str fromCurrency) (.str toCurrency) (.num (.inf false))
          (jsMul (.inf false) r) r u), st1)) := by
  refine ⟨?_, ?_⟩
  · intro amount ha
    have ha1 : ∀ n, amount = .num n → jsLeZero n = true := by
      intro n hn
      rcases ha with h | ⟨m, hm, hle⟩
      · exact absurd hn (h n)
      · rw [hm] at hn
        injection hn with hmn
        rw [← hmn]
        exact hle
    exact ⟨.failure (.str "La cantidad debe ser un número positivo") (.str fromCurrency)
      (.str toCurrency) amount, rfl,
      convert_of_bad_amount api st fromCurrency toCurrency amount
        ((isCurrencySupported_str _ _).mp hf) ((isCurrencySupported_str _ _).mp ht) ha1⟩
  · intro r u st1 hp
    exact convert_of_provider_success api st st1 fromCurrency toCurrency (.inf false) r u
      ((isCurrencySupported_str _ _).mp hf) ((isCurrencySupported_str _ _).mp ht) rfl hp

/-- Witness of C4 (amended) with the stubbed provider: `-Infinity` is
rejected without a call, `+Infinity` reaches the provider. -/
theorem convert_amount_guard_witness :
    isCurrencySupported (.str "USD") = .ok true ∧
    isCurrencySupported (.str "EUR") = .ok true ∧
    (∃ result, result.isSuccess = false ∧
      convert stubProvider 0 (.str "USD") (.str "EUR") (.num (.inf true)) = (.ok result, 0)) ∧
    convert stubProvider 0 (.str "USD") (.str "EUR") (.num (.inf false)) =
      (.ok (.success (.str "USD") (.str "EUR") (.num (.inf false))
        (jsMul (.inf false) JsNum.zeroPointNine) JsNum.zeroPointNine "2023-11-14"), 1) :=
  ⟨by decide, by decide,
    (convert_amount_guard stubProvider 0 "USD" "EUR" (by decide) (by decide)).1
      (.num (.inf true)) (Or.inr ⟨_, rfl, rfl⟩),
    (convert_amount_guard stubProvider 0 "USD" "EUR" (by decide) (by decide)).2
      JsNum.zeroPointNine "2023-11-14" 1 rfl⟩

/-! ## convert never raises -/

theorem receiverString_throws (v : JsVal) (e : Thrown) (h : receiverString v = .error e) :
    e.isErrorObject := by
  cases v <;> simp only [receiverString, Except.error.injEq, reduceCtorEq] at h <;>
    (rw [← h]; trivial)

theorem catchGetExchangeRate_throws (e x : Thrown) (h : catchGetExchangeRate e = .error x) :
    x.isErrorObject := by
  cases e with
  | error name message =>
    simp only [catchGetExchangeRate] at h
    split at h <;> simp at h
  | undefined =>
    simp only [catchGetExchangeRate, Except.error.injEq] at h
    rw [← h]; trivial
  | null =>
    simp only [catchGetExchangeRate, Except.error.injEq] at h
    rw [← h]; trivial
  | primitive => simp [catchGetExchangeRate] at h

theorem fetchExchangeRate_throws (env : CallEnv PairBody) (api : ApiService)
    (fromCurrency toCurrency : String) (x : Thrown)
    (h : (fetchExchangeRate env api fromCurrency toCurrency).1 = .error x) :
    x.isErrorObject := by
  unfold fetchExchangeRate at h
  simp only [] at h
  cases hfetch : env.fetch (pairUrl api fromCurrency toCurrency) with
  | rejects e =>
    rw [hfetch] at h
    exact catchGetExchangeRate_throws e x h
  | resolves response =>
    rw [hfetch] at h
    by_cases hok : response.ok = true
    · cases hj : response.json with
      | rejects e =>
        simp only [hok, hj, Bool.not_true, Bool.false_eq_true, if_false] at h
        exact catchGetExchangeRate_throws e x h
      | body data =>
        by_cases herr : data.result = "error"
        · simp [hok, hj, herr] at h
        · simp [hok, hj, herr] at h
    · simp only [hok, Bool.not_eq_true', Bool.not_false, if_true] at h
      exact catchGetExchangeRate_throws _ x h

theorem getExchangeRate_throws (env : CallEnv PairBody) (api : ApiService)
    (fromCurrency toCurrency : String) (x : Thrown)
    (h : (getExchangeRate env api fromCurrency toCurrency).1 = .error x) :
    x.isErrorObject := by
  unfold getExchangeRate at h
  cases hget : api.cache.get (cacheKey fromCurrency toCurrency) with
  | none =>
    rw [hget] at h
    exact fetchExchangeRate_throws env api fromCurrency toCurrency x h
  | some cachedData =>
    rw [hget] at h
    by_cases hfresh : env.now - cachedData.timestamp < api.cacheTimeout
    · simp [hfresh] at h
    · simp only [hfresh, if_false] at h
      exact fetchExchangeRate_throws env api fromCurrency toCurrency x h

theorem not_nullish_of_isErrorObject (x : Thrown) (h : x.isErrorObject) :
    x ≠ .undefined ∧ x ≠ .null := by
  cases x <;> simp [Thrown.isErrorObject] at h ⊢

theorem getExchangeRate_throws_not_nullish (env : CallEnv PairBody) (api : ApiService)
    (fromCurrency toCurrency : String) (x : Thrown)
    (h : (getExchangeRate env api fromCurrency toCurrency).1 = .error x) :
    x ≠ .undefined ∧ x ≠ .null :=
  not_nullish_of_isErrorObject x (getExchangeRate_throws env api fromCurrency toCurrency x h)

theorem convertBody_throws {σ : Type} (api : RateProvider σ)
    (hapi : ∀ st f t x, (api st f t).1 = .error x → x ≠ .undefined ∧ x ≠ .null)
    (st : σ) (fromCurrency toCurrency amount : JsVal) (x : Thrown)
    (h : (convertBody api st fromCurrency toCurrency amount).1 = .error x) :
    x ≠ .undefined ∧ x ≠ .null := by
  unfold convertBody at h
  cases hf : receiverString fromCurrency with
  | error e =>
    rw [hf] at h
    simp only [Except.error.injEq] at h
    rw [← h]
    exact not_nullish_of_isErrorObject _ (receiverString_throws _ _ hf)
  | ok f =>
    rw [hf] at h
    by_cases hsf : isSupportedString f = true
    · cases ht : receiverString toCurrency with
      | error e =>
        simp only [hsf, ht, Bool.not_true, Bool.false_eq_true, if_false,
          Except.error.injEq] at h
        rw [← h]
        exact not_nullish_of_isErrorObject _ (receiverString_throws _ _ ht)
      | ok t =>
        by_cases hst : isSupportedString t = true
        · simp only [hsf, ht, hst, Bool.not_true, Bool.false_eq_true, if_false] at h
          cases amount with
          | num n =>
            by_cases hle : jsLeZero n = true
            · simp [hle] at h
            · simp only [hle, if_false] at h
              have hx := hapi st f t
              cases hp : api st f t with
              | mk outcome st1 =>
                rw [hp] at h hx
                cases outcome with
                | error e =>
                  simp at h
                  exact hx x (by simp [h])
                | ok data =>
                  cases data <;> simp at h
          | undefined => simp at h
          | null => simp at h
          | bool b => simp at h
          | str s1 => simp at h
          | inherited p1 => simp at h
        · simp [hsf, ht, hst] at h
    · simp [hsf] at h

theorem convert_returns_of_not_nullish {σ : Type} (api : RateProvider σ)
    (hapi : ∀ st f t x, (api st f t).1 = .error x → x ≠ .undefined ∧ x ≠ .null)
    (st : σ) (fromCurrency toCurrency amount : JsVal) :
    ∃ result : ConversionResult,
      (convert api st fromCurrency toCurrency amount).1 = .ok result ∧
      ∀ x, (convertBody api st fromCurrency toCurrency amount).1 = .error x →
        ∃ message : String,
          result = .failure (.str ("Error en la conversión: " ++ message))
            fromCurrency toCurrency amount := by
  unfold convert
  cases hb : convertBody api st fromCurrency toCurrency amount with
  | mk outcome st1 =>
    cases outcome with
    | ok result => exact ⟨result, rfl, fun x hx => by simp at hx⟩
    | error e =>
      have he : e ≠ .undefined ∧ e ≠ .null :=
        convertBody_throws api hapi st fromCurrency toCurrency amount e (by rw [hb])
      cases e with
      | error name message =>
        exact ⟨_, rfl, fun x _ => ⟨message, rfl⟩⟩
      | undefined => exact absurd rfl he.1
      | null => exact absurd rfl he.2
      | primitive =>
        exact ⟨_, rfl, fun x _ => ⟨"undefined", rfl⟩⟩

/-- C8 as stated fails: with a `getExchangeRate` that throws `undefined`,
`convert("USD", "EUR", 100)` passes its checks, calls the method, and its
`catch` clause throws a `TypeError` on reading `error.message`: `convert`
raises to its caller instead of returning a result. -/
theorem convert_raises_on_thrown_undefined :
    isCurrencySupported (.str "USD") = .ok true ∧
    isCurrencySupported (.str "EUR") = .ok true ∧
    throwingUndefined 0 "USD" "EUR" = (.error .undefined, 1) ∧
    convert throwingUndefined 0 (.str "USD") (.str "EUR") (.num (JsNum.ofNat 100)) =
      (.error (.error "TypeError" "Cannot read properties of undefined (reading 'message')"),
        1) := by
  decide

/-- C8, amended: `convert` never raises to its caller for every input
`from`, `to`, `amount` made of primitive values (strings or not: `undefined`,
`null`, booleans, numbers) and for every `getExchangeRate` that returns a
result or throws anything other than `undefined` or `null`: it returns a
result object, which carries the success flag, and when something is thrown
inside its `try` block the result is the failure with a message that begins
`Error en la conversión: ` and with `from`, `to`, `amount` echoed.  This
covers every behaviour of the real `ApiService.getExchangeRate`, in every
state and under every behaviour of the network and the clock, including
those that make it throw. -/
theorem convert_never_raises {σ : Type} (api : RateProvider σ)
    (hapi : ∀ st f t x, (api st f t).1 = .error x → x ≠ .undefined ∧ x ≠ .null)
    (st : σ) (fromCurrency toCurrency amount : JsVal) :
    (∃ result : ConversionResult,
      (convert api st fromCurrency toCurrency amount).1 = .ok result ∧
      ∀ x, (convertBody api st fromCurrency toCurrency amount).1 = .error x →
        ∃ message : String,
          result = .failure (.str ("Error en la conversión: " ++ message))
            fromCurrency toCurrency amount) ∧
    ∀ (env : CallEnv PairBody) (service : ApiService),
      ∃ result : ConversionResult,
        (convert (getExchangeRate env) service fromCurrency toCurrency amount).1 =
          .ok result ∧
        ∀ x, (convertBody (getExchangeRate env) service fromCurrency toCurrency amount).1 =
            .error x →
          ∃ message : String,
            result = .failure (.str ("Error en la conversión: " ++ message))
              fromCurrency toCurrency amount :=
  ⟨convert_returns_of_not_nullish api hapi st fromCurrency toCurrency amount,
    fun env service =>
      convert_returns_of_not_nullish (getExchangeRate env)
        (fun s f t x hx => getExchangeRate_throws_not_nullish env s f t x hx) service
        fromCurrency toCurrency amount⟩

/-- Witness of C8 (amended) on the real service with a network whose `fetch`
rejects with `undefined`: `getExchangeRate` throws a `TypeError`, and
`convert("USD", "EUR", 100)` returns the failure result made from it. -/
theorem convert_never_raises_witness :
    (∀ st f t x, (getExchangeRate rejectingEnv st f t).1 = .error x →
      x ≠ .undefined ∧ x ≠ .null) ∧
    (getExchangeRate rejectingEnv ApiService.new "USD" "EUR").1 =
      .error (.error "TypeError" "Cannot read properties of undefined (reading 'name')") ∧
    (convert (getExchangeRate rejectingEnv) ApiService.new (.str "USD") (.str "EUR")
        (.num (JsNum.ofNat 100))).1 =
      .ok (.failure
        (.str "Error en la conversión: Cannot read properties of undefined (reading 'name')")
        (.str "USD") (.str "EUR") (.num (JsNum.ofNat 100))) := by
  have hapi : ∀ st f t x, (getExchangeRate rejectingEnv st f t).1 = .error x →
      x ≠ .undefined ∧ x ≠ .null :=
    fun st f t x hx => getExchangeRate_throws_not_nullish rejectingEnv st f t x hx
  obtain ⟨result, hres, hcaught⟩ :=
    (convert_never_raises (getExchangeRate rejectingEnv) hapi ApiService.new (.str "USD")
      (.str "EUR") (.num (JsNum.ofNat 100))).1
  have hthrow : (getExchangeRate rejectingEnv ApiService.new "USD" "EUR").1 =
      .error (.error "TypeError" "Cannot read properties of undefined (reading 'name')") := by
    decide
  refine ⟨hapi, hthrow, ?_⟩
  rw [hres]
  have hval : (convert (getExchangeRate rejectingEnv) ApiService.new (.str "USD")
      (.str "EUR") (.num (JsNum.ofNat 100))).1 =
      .ok (.failure
        (.str "Error en la conversión: Cannot read properties of undefined (reading 'name')")
        (.str "USD") (.str "EUR") (.num (JsNum.ofNat 100))) := by
    decide
  rw [hres] at hval
  exact hval

theorem convert_catches_examples :
    convert (getExchangeRate (sampleEnv 1000 sampleBody)) ApiService.new .undefined
        (.str "USD") (.num (JsNum.ofNat 100)) =
      (.ok (.failure
        (.str "Error en la conversión: Cannot read properties of undefined (reading 'toUpperCase')")
        .undefined (.str "USD") (.num (JsNum.ofNat 100))), ApiService.new) ∧
    (convert (getExchangeRate (sampleEnv 1000 sampleBody)) ApiService.new (.str "USD")
        (.num (JsNum.ofNat 7)) (.num (JsNum.ofNat 100))).1 =
      .ok (.failure (.str "Error en la conversión: currencyCode.toUpperCase is not a function")
        (.str "USD") (.num (JsNum.ofNat 7)) (.num (JsNum.ofNat 100))) ∧
    (getExchangeRate rejectingEnv ApiService.new "USD" "EUR").1 =
      .error (.error "TypeError" "Cannot read properties of undefined (reading 'name')") ∧
    (convert (getExchangeRate rejectingEnv) ApiService.new (.str "USD") (.str "EUR")
        (.num (JsNum.ofNat 100))).1 =
      .ok (.failure
        (.str "Error en la conversión: Cannot read properties of undefined (reading 'name')")
        (.str "USD") (.str "EUR") (.num (JsNum.ofNat 100))) := by
  decide

theorem zeroPointNine_nearest :
    JsNum.zeroPointNine = .fin false 8106479329266893 (-53) ∧
    |(8106479329266893 : ℚ) / 2 ^ 53 - 9 / 10| < 1 / 2 ^ 54 := by
  refine ⟨rfl, ?_⟩
  rw [abs_lt]
  constructor <;> norm_num

end Convercoin
